import Mathlib

/-!
Verification of the slow-route aggregation and trace-ranking logic of the
sentry-mcp repository (src/sentry_mcp/client.py and src/sentry_mcp/server.py),
as a shallow embedding in Lean 4.

Numbers coming from the JSON API are modelled as rationals; a JSON field that
may be absent or null is modelled as an `Option`.  Python truthiness on a
numeric value is `≠ 0`, on a string value `≠ ""`.  Python's `round(x, 2)`
(round half to even at two decimals) is modelled exactly on rationals.
Network fetches are passed in as explicit arguments (the fetched list, or a
`String → Option _` function for per-event fetches whose `none` case stands
for a raised exception).
-/

namespace SentryMCP

/-- Round half to even to an integer, as Python's builtin `round` does. -/
def roundHalfEven (q : ℚ) : ℤ :=
  if q - ⌊q⌋ = 1/2 then (if 2 ∣ ⌊q⌋ then ⌊q⌋ else ⌊q⌋ + 1) else round q

/-- Python's `round(x, 2)`: round half to even at two decimal places. -/
def pyRound2 (q : ℚ) : ℚ := (roundHalfEven (q * 100) : ℚ) / 100

/-- Python `x.get(k, 0) or 0` on a numeric field: absent/null and falsy `0`
all collapse to `0`. -/
def orZero (o : Option ℚ) : ℚ := o.getD 0

/-- Python `a or b` on an optional string: `none` and the falsy empty string
fall through to the default. -/
def orStr (o : Option String) (d : String) : String :=
  match o with
  | some s => if s = "" then d else s
  | none => d

/-! ## Stable descending sort by a rational key

`list.sort(key=..., reverse=True)` in Python is a stable sort; equal keys keep
their original relative order.  Any stable descending-by-key sort computes the
same list, so we embed it as stable insertion sort. -/

/-- Insert `x` into a descending-sorted list, before the first element whose
key is `≤` the key of `x` (so that, on ties, `x` ends up before elements that
came later in the original list). -/
def insertDescBy {α : Type} (key : α → ℚ) (x : α) : List α → List α
  | [] => [x]
  | y :: ys => if key y ≤ key x then x :: y :: ys else y :: insertDescBy key x ys

/-- Stable descending sort by `key`: the embedding of Python's
`sort(key=..., reverse=True)`. -/
def sortDescBy {α : Type} (key : α → ℚ) : List α → List α
  | [] => []
  | x :: xs => insertDescBy key x (sortDescBy key xs)

/-! ## Slow-transaction aggregation (client.py, `analyze_slow_transactions`) -/

/-- One raw transaction row as returned by the events endpoint.  Each field the
aggregator reads may be absent or null. -/
structure TransRow where
  transaction : Option String
  p95 : Option ℚ
  p50 : Option ℚ
  tpm : Option ℚ
  failure_rate : Option ℚ
  http_method : Option String
  transaction_op : Option String
deriving DecidableEq, Repr

/-- The route key of a row: `trans.get("transaction", "unknown")`. -/
def routeOf (t : TransRow) : String := t.transaction.getD "unknown"

/-- The per-route record stored in the `routes` dict on first sighting. -/
structure RouteGroup where
  transaction : String
  p95_ms : ℚ
  p50_ms : ℚ
  tpm : ℚ
  failure_rate : ℚ
  http_method : String
  transaction_op : String
deriving DecidableEq, Repr

/-- The record stored for a row's route when the route is first seen. -/
def mkGroup (t : TransRow) : RouteGroup :=
  { transaction := routeOf t
    p95_ms := orZero t.p95
    p50_ms := orZero t.p50
    tpm := orZero t.tpm
    failure_rate := orZero t.failure_rate
    http_method := t.http_method.getD "N/A"
    transaction_op := t.transaction_op.getD "N/A" }

/-- One step of the grouping loop: `if route not in routes: routes[route] = ...`.
The Python dict keeps insertion order, so it is modelled as a list with new
routes appended at the end. -/
def insertRow (groups : List RouteGroup) (t : TransRow) : List RouteGroup :=
  if groups.any (fun g => g.transaction == routeOf t) then groups
  else groups ++ [mkGroup t]

/-- The `routes` dict after the grouping loop, in insertion order. -/
def groupRoutes (ts : List TransRow) : List RouteGroup := ts.foldl insertRow []

/-- One entry of the `slow_routes` list (display values rounded to 2 decimals,
failure rate converted to a percentage). -/
structure SlowRouteStat where
  route : String
  p95_ms : ℚ
  p50_ms : ℚ
  tpm : ℚ
  failure_rate : ℚ
  http_method : String
  transaction_op : String
deriving DecidableEq, Repr

/-- The stat record built for a route that passes the threshold filter. -/
def mkStat (g : RouteGroup) : SlowRouteStat :=
  { route := g.transaction
    p95_ms := pyRound2 g.p95_ms
    p50_ms := pyRound2 g.p50_ms
    tpm := pyRound2 g.tpm
    failure_rate := pyRound2 (g.failure_rate * 100)
    http_method := g.http_method
    transaction_op := g.transaction_op }

/-- The `slow_routes` list before sorting: routes whose recorded p95 strictly
exceeds the threshold, in first-encounter order. -/
def slowRoutesPre (ts : List TransRow) (threshold_ms : ℚ) : List SlowRouteStat :=
  ((groupRoutes ts).filter (fun g => decide (threshold_ms < g.p95_ms))).map mkStat

/-- The final `slow_routes` list: `slow_routes.sort(key p95_ms, reverse=True)`. -/
def slowRoutesSorted (ts : List TransRow) (threshold_ms : ℚ) : List SlowRouteStat :=
  sortDescBy (fun s => s.p95_ms) (slowRoutesPre ts threshold_ms)

/-- Result of `analyze_slow_transactions`: either the error dict
`{"error": "No transactions found"}` or the normal summary dict. -/
inductive AnalysisResult where
  | err (msg : String)
  | ok (total_transactions : ℕ) (total_routes : ℕ) (slow_routes_count : ℕ)
       (threshold_ms : ℚ) (period : String) (slow_routes : List SlowRouteStat)
deriving DecidableEq, Repr

/-- The embedding of `SentryClient.analyze_slow_transactions`, taking the
already-fetched transaction list as input. -/
def analyze_slow_transactions (ts : List TransRow) (threshold_ms : ℚ)
    (period : String) : AnalysisResult :=
  if ts = [] then .err "No transactions found"
  else
    .ok ts.length (groupRoutes ts).length (slowRoutesSorted ts threshold_ms).length
      threshold_ms period (slowRoutesSorted ts threshold_ms)

/-- The `slow_routes` field of an analysis result (empty on the error shape). -/
def resultSlowRoutes : AnalysisResult → List SlowRouteStat
  | .err _ => []
  | .ok _ _ _ _ _ slow => slow

/-- The routes listed by the server's `get_performance_overview` tool, which
calls `analyze_slow_transactions(threshold_ms=0, period=period)` and prints
`result["slow_routes"]` (server.py). -/
def performanceOverviewRoutes (ts : List TransRow) (period : String) :
    List SlowRouteStat :=
  resultSlowRoutes (analyze_slow_transactions ts 0 period)

/-! ## Trace and span analysis (client.py, `get_transaction_trace`) -/

/-- One raw span record inside an event.  `tags` and `dat` model the JSON
`tags` and `data` mappings, whose contents the code passes through. -/
structure SpanRec where
  start_timestamp : Option ℚ
  timestamp : Option ℚ
  op : Option String
  description : Option String
  tags : Option (List (String × String))
  dat : Option (List (String × String))
deriving DecidableEq, Repr

/-- One entry of the event's `entries` list: a type marker and a payload array
under the `data` key. -/
structure Entry where
  type : Option String
  data : Option (List SpanRec)
deriving DecidableEq, Repr

/-- One raw event detail record.  `spans` models a top-level `spans` field and
`traceContextDuration` a nested `contexts.trace` duration field: both are
present in the data model so we can state whether the code consults them.
`traceContextDurationInSeconds` records whether that nested duration is
expressed in seconds. -/
structure EventRec where
  entries : Option (List Entry)
  spans : Option (List SpanRec)
  startTimestamp : Option ℚ
  endTimestamp : Option ℚ
  traceContextDuration : Option ℚ
  traceContextDurationInSeconds : Bool
  title : Option String
  transaction : Option String
  dateReceived : Option String
deriving DecidableEq, Repr

/-- The span-extraction loop: take the `data` payload of the first entry whose
`type` equals `"spans"`; `spans` stays `[]` if no entry matches. -/
def findSpansEntry : List Entry → List SpanRec
  | [] => []
  | e :: rest =>
      if e.type == some "spans" then e.data.getD [] else findSpansEntry rest

/-- Span extraction of `get_transaction_trace`: iterate
`event.get("entries", [])` looking for a `"spans"` entry. -/
def extractSpans (ev : EventRec) : List SpanRec :=
  findSpansEntry (ev.entries.getD [])

/-- Modelled from the spec: span extraction as §4.2 step 1 describes it, with
the fallback "if no such entries exist ... fall back to a top-level span
field", which is absent from src/sentry_mcp.  Stated only to compare with
`extractSpans`. -/
def specExtractSpans (ev : EventRec) : List SpanRec :=
  if (ev.entries.getD []).any (fun e => e.type == some "spans") then
    findSpansEntry (ev.entries.getD [])
  else
    ev.spans.getD []

/-- One analyzed span dict as built by `get_transaction_trace`. -/
structure AnalyzedSpan where
  op : String
  description : String
  duration_ms : ℚ
  tags : List (String × String)
  dat : List (String × String)
deriving DecidableEq, Repr

/-- Analysis of a single span: duration `(end - start) * 1000` when both
timestamps are truthy, else 0, rounded to two decimals. -/
def analyzeSpan (s : SpanRec) : AnalyzedSpan :=
  { op := s.op.getD "unknown"
    description := s.description.getD "N/A"
    duration_ms :=
      pyRound2 (if s.start_timestamp.getD 0 ≠ 0 ∧ s.timestamp.getD 0 ≠ 0 then
        (s.timestamp.getD 0 - s.start_timestamp.getD 0) * 1000 else 0)
    tags := s.tags.getD []
    dat := s.dat.getD [] }

/-- Total trace duration: `(endTimestamp - startTimestamp) * 1000` when both
are present and truthy, else 0 (not rounded). -/
def totalDuration (ev : EventRec) : ℚ :=
  if ev.startTimestamp.getD 0 ≠ 0 ∧ ev.endTimestamp.getD 0 ≠ 0 then
    (ev.endTimestamp.getD 0 - ev.startTimestamp.getD 0) * 1000
  else 0

/-- Modelled from the spec: total trace duration as §4.2 step 5 describes it,
including the fallback "otherwise derive from a nested trace-context duration
field, scaled ×1000 if expressed in seconds", which is absent from
src/sentry_mcp.  Stated only to compare with `totalDuration`. -/
def specTotalDuration (ev : EventRec) : ℚ :=
  if ev.startTimestamp.getD 0 ≠ 0 ∧ ev.endTimestamp.getD 0 ≠ 0 then
    (ev.endTimestamp.getD 0 - ev.startTimestamp.getD 0) * 1000
  else
    match ev.traceContextDuration with
    | some d => if ev.traceContextDurationInSeconds then d * 1000 else d
    | none => 0

/-- Result of `get_transaction_trace`: the error dict `{"error": ...}` or the
trace-analysis dict. -/
inductive TraceResult where
  | err (msg : String)
  | ok (event_id : String) (transaction : String) (total_duration_ms : ℚ)
       (timestamp : Option String) (spans_count : ℕ) (spans : List AnalyzedSpan)
deriving DecidableEq, Repr

/-- The embedding of `SentryClient.get_transaction_trace`, taking the fetched
event as input (`none` models a falsy response: event not found). -/
def get_transaction_trace (event_id : String) (fetched : Option EventRec) :
    TraceResult :=
  match fetched with
  | none => .err "Event not found"
  | some ev =>
      .ok event_id
        (orStr ev.title (orStr ev.transaction "Unknown"))
        (totalDuration ev)
        ev.dateReceived
        ((extractSpans ev).map analyzeSpan).length
        ((sortDescBy (fun a => a.duration_ms) ((extractSpans ev).map analyzeSpan)).take 20)

/-- The `spans` field of a trace result (empty on the error shape). -/
def traceSpans : TraceResult → List AnalyzedSpan
  | .err _ => []
  | .ok _ _ _ _ _ spans => spans

/-- The `spans_count` field of a trace result (0 on the error shape). -/
def traceSpansCount : TraceResult → ℕ
  | .err _ => 0
  | .ok _ _ _ _ n _ => n

/-- The `total_duration_ms` field of a trace result (0 on the error shape). -/
def traceTotalDuration : TraceResult → ℚ
  | .err _ => 0
  | .ok _ _ d _ _ _ => d

/-! ## Route-to-traces bridge (client.py, `get_route_detailed_traces`) -/

/-- One event summary row as returned by `get_transaction_events`: an `id`
and a `transaction.duration` in seconds, each possibly absent. -/
structure EvSummary where
  id : Option String
  duration : Option ℚ
deriving DecidableEq, Repr

/-- Result of `get_route_detailed_traces`: the error dict, the
"no events slower than threshold" message dict, or the full dict. -/
inductive RouteTracesResult where
  | err (msg : String)
  | noSlow (route : String) (message : String) (total_events : ℕ)
           (traces : List TraceResult)
  | ok (route : String) (period : String) (threshold_ms : ℚ) (total_events : ℕ)
       (slow_events_count : ℕ) (traces_analyzed : ℕ) (traces : List TraceResult)
deriving DecidableEq, Repr

/-- The threshold filter of `get_route_detailed_traces`:
`(e.get("transaction.duration") or 0) * 1000 >= threshold_ms`. -/
def slowEventsOf (events : List EvSummary) (threshold_ms : ℚ) : List EvSummary :=
  events.filter (fun e => decide (threshold_ms ≤ orZero e.duration * 1000))

/-- One iteration of the trace-collection loop, as a `filterMap` step: skip an
event with a falsy id, skip an event whose individual trace fetch raised
(`fetchTr` returns `none`), keep the fetched trace otherwise. -/
def tryFetchTrace (fetchTr : String → Option TraceResult) (e : EvSummary) :
    Option TraceResult :=
  match e.id with
  | none => none
  | some eid => if eid = "" then none else fetchTr eid

/-- The trace-collection loop of `get_route_detailed_traces` over
`slow_events[:limit]`. -/
def collectTraces (fetchTr : String → Option TraceResult) :
    List EvSummary → List TraceResult
  | [] => []
  | e :: rest =>
      match tryFetchTrace fetchTr e with
      | some t => t :: collectTraces fetchTr rest
      | none => collectTraces fetchTr rest

/-- The embedding of `SentryClient.get_route_detailed_traces`, taking the
fetched event list and the per-event trace fetcher as inputs. -/
def get_route_detailed_traces (route : String) (period : String)
    (threshold_ms : ℚ) (limit : ℕ) (events : List EvSummary)
    (fetchTr : String → Option TraceResult) : RouteTracesResult :=
  if events = [] then .err ("No events found for route: " ++ route)
  else if slowEventsOf events threshold_ms = [] then
    .noSlow route ("No events slower than " ++ toString threshold_ms ++ "ms found")
      events.length []
  else
    .ok route period threshold_ms events.length
      (slowEventsOf events threshold_ms).length
      (collectTraces fetchTr ((slowEventsOf events threshold_ms).take limit)).length
      (collectTraces fetchTr ((slowEventsOf events threshold_ms).take limit))

/-! ## Concrete inputs used by scenario checks, witnesses and counterexamples -/

/-- The three-row input of the spec's first-write-wins scenario. -/
def scenarioRows : List TransRow :=
  [ ⟨some "/a", some 500, none, none, none, none, none⟩,
    ⟨some "/a", some 9000, none, none, none, none, none⟩,
    ⟨some "/b", some 3000, none, none, none, none, none⟩ ]

/-- A single row whose route passes no positive threshold. -/
def rowBelow : TransRow := ⟨some "/x", some 100, none, none, none, none, none⟩

/-- A single row whose `p95()` field is absent. -/
def rowNoP95 : TransRow := ⟨some "/z", none, some 7, some 3, some (1/2), some "GET", some "http.server"⟩

/-- A span whose timestamps are out of order (end before start). -/
def spanBackwards : SpanRec := ⟨some 2, some 1, none, none, none, none⟩

/-- A span whose duration `(1/300) * 1000 = 10/3` ms is not representable at
two decimals. -/
def spanThird : SpanRec := ⟨some 1, some (1 + 1/300), none, none, none, none⟩

/-- A span with ordered, truthy timestamps. -/
def spanForward : SpanRec := ⟨some 1, some 3, none, none, none, none⟩

/-- A row whose recorded p95 equals a threshold of 2000 exactly. -/
def rowAtThreshold : TransRow :=
  ⟨some "/e", some 2000, none, none, none, none, none⟩

/-- First event summary of the route-to-traces witness: above a 2000 ms
threshold, trace fetch succeeds. -/
def evA : EvSummary := ⟨some "a", some 3⟩

/-- Second event summary, above threshold but with a failing trace fetch. -/
def evB : EvSummary := ⟨some "b", some 3⟩

/-- Third event summary, below threshold. -/
def evC : EvSummary := ⟨some "c", some 1⟩

/-- The fetched event list of the route-to-traces witness. -/
def evsW : List EvSummary := [evA, evB, evC]

/-- The trace returned for event "a" in the route-to-traces witness. -/
def trW : TraceResult := .ok "a" "T" 0 none 0 []

/-- The per-event trace fetcher of the route-to-traces witness: succeeds on
"a", raises on everything else. -/
def fetchW : String → Option TraceResult :=
  fun eid => if eid = "a" then some trW else none

/-- An event carrying only a backwards span. -/
def eventBackwards : EventRec :=
  ⟨some [⟨some "spans", some [spanBackwards]⟩], none, none, none, none, false,
   none, none, none⟩

/-- An event with no start/end timestamps but a nested trace-context duration
of 5 seconds. -/
def eventCtxOnly : EventRec :=
  ⟨none, none, none, none, some 5, true, none, none, none⟩

/-- An event with no `"spans"` entry but a top-level span field. -/
def eventTopLevelSpans : EventRec :=
  ⟨some [⟨some "breadcrumbs", none⟩], some [⟨some 1, some 2, none, none, none, none⟩],
   none, none, none, false, none, none, none⟩

/-! ## General lemmas -/

theorem pyRound2_nonneg {q : ℚ} (hq : 0 ≤ q) : 0 ≤ pyRound2 q := by
  have h100 : (0 : ℚ) ≤ q * 100 := by positivity
  have hfloor : (0 : ℤ) ≤ ⌊q * 100⌋ := Int.floor_nonneg.mpr h100
  have hhe : (0 : ℤ) ≤ roundHalfEven (q * 100) := by
    unfold roundHalfEven
    split
    · split
      · exact hfloor
      · omega
    · rw [round_eq]
      refine Int.floor_nonneg.mpr ?_
      linarith
  unfold pyRound2
  have : (0 : ℚ) ≤ (roundHalfEven (q * 100) : ℚ) := by exact_mod_cast hhe
  positivity

theorem insertDescBy_perm {α : Type} (key : α → ℚ) (x : α) (l : List α) :
    (insertDescBy key x l).Perm (x :: l) := by
  induction l with
  | nil => simp [insertDescBy]
  | cons y ys ih =>
    unfold insertDescBy
    split
    · exact List.Perm.refl _
    · exact (List.Perm.cons y ih).trans (List.Perm.swap x y ys)

theorem sortDescBy_perm {α : Type} (key : α → ℚ) (l : List α) :
    (sortDescBy key l).Perm l := by
  induction l with
  | nil => simp [sortDescBy]
  | cons x xs ih =>
    unfold sortDescBy
    exact (insertDescBy_perm key x (sortDescBy key xs)).trans (List.Perm.cons x ih)

theorem insertDescBy_pairwise {α : Type} (key : α → ℚ) (x : α) {l : List α}
    (hl : l.Pairwise (fun a b => key b ≤ key a)) :
    (insertDescBy key x l).Pairwise (fun a b => key b ≤ key a) := by
  induction l with
  | nil => simp [insertDescBy]
  | cons y ys ih =>
    rw [List.pairwise_cons] at hl
    unfold insertDescBy
    split
    · rename_i hxy
      refine List.pairwise_cons.mpr ⟨?_, List.pairwise_cons.mpr hl⟩
      intro z hz
      rcases List.mem_cons.mp hz with rfl | hz
      · exact hxy
      · exact le_trans (hl.1 z hz) hxy
    · rename_i hxy
      refine List.pairwise_cons.mpr ⟨?_, ih hl.2⟩
      intro z hz
      have hz' := (insertDescBy_perm key x ys).mem_iff.mp hz
      rcases List.mem_cons.mp hz' with rfl | hz'
      · exact le_of_lt (lt_of_not_le hxy)
      · exact hl.1 z hz'

theorem sortDescBy_pairwise {α : Type} (key : α → ℚ) (l : List α) :
    (sortDescBy key l).Pairwise (fun a b => key b ≤ key a) := by
  induction l with
  | nil => simp [sortDescBy]
  | cons x xs ih => exact insertDescBy_pairwise key x ih

theorem insertDescBy_filter_key {α : Type} (key : α → ℚ) (x : α) {l : List α}
    (hl : l.Pairwise (fun a b => key b ≤ key a)) (c : ℚ) :
    (insertDescBy key x l).filter (fun a => decide (key a = c)) =
      if key x = c then x :: l.filter (fun a => decide (key a = c))
      else l.filter (fun a => decide (key a = c)) := by
  induction l with
  | nil =>
    simp only [insertDescBy, List.filter]
    split <;> rename_i h
    · simp_all
    · simp_all
  | cons y ys ih =>
    rw [List.pairwise_cons] at hl
    unfold insertDescBy
    split
    · rename_i hxy
      by_cases hx : key x = c <;> simp [List.filter, hx]
    · rename_i hxy
      have hlt : key x < key y := lt_of_not_le hxy
      by_cases hx : key x = c
      · have hy : ¬ (key y = c) := by
          intro h; rw [hx] at hlt; rw [h] at hlt; exact lt_irrefl _ hlt
        simp [List.filter, hy, hx, ih hl.2]
      · by_cases hy : key y = c <;> simp [List.filter, hy, hx, ih hl.2]

theorem sortDescBy_filter_key {α : Type} (key : α → ℚ) (l : List α) (c : ℚ) :
    (sortDescBy key l).filter (fun a => decide (key a = c)) =
      l.filter (fun a => decide (key a = c)) := by
  induction l with
  | nil => simp [sortDescBy]
  | cons x xs ih =>
    unfold sortDescBy
    rw [insertDescBy_filter_key key x (sortDescBy_pairwise key xs) c]
    by_cases hx : key x = c <;> simp [List.filter, hx, ih]

theorem pyRound2_of_mul_int {q : ℚ} (m : ℤ) (h : q * 100 = (m : ℚ)) : pyRound2 q = q := by
  have hfl : ⌊q * 100⌋ = m := by rw [h]; exact Int.floor_intCast m
  have hcond : ¬ (q * 100 - ⌊q * 100⌋ = 1/2) := by
    rw [hfl, h]; norm_num
  unfold pyRound2 roundHalfEven
  rw [if_neg hcond, h, round_intCast]
  field_simp
  linarith [h]

theorem pyRound2_zero : pyRound2 0 = 0 := pyRound2_of_mul_int 0 (by norm_num)

theorem pyRound2_3000 : pyRound2 3000 = 3000 := pyRound2_of_mul_int 300000 (by norm_num)

theorem pyRound2_neg1000 : pyRound2 (-1000) = -1000 :=
  pyRound2_of_mul_int (-100000) (by norm_num)

theorem pyRound2_2000 : pyRound2 2000 = 2000 := pyRound2_of_mul_int 200000 (by norm_num)

/-! ## Grouping lemmas -/

theorem foldl_insertRow_find? (ts : List TransRow) (acc : List RouteGroup)
    (r : String) :
    (ts.foldl insertRow acc).find? (fun g => g.transaction == r) =
      ((acc.find? (fun g => g.transaction == r)).or
        ((ts.find? (fun t => routeOf t == r)).map mkGroup)) := by
  induction ts generalizing acc with
  | nil => simp
  | cons t ts ih =>
    rw [List.foldl_cons, ih]
    rcases hacc : acc.find? (fun g => g.transaction == r) with _ | g
    · have haccall : ∀ g ∈ acc, ¬ (g.transaction == r) = true :=
        List.find?_eq_none.mp hacc
      by_cases hroute : routeOf t = r
      · have hany : acc.any (fun g => g.transaction == routeOf t) = false := by
          rw [Bool.eq_false_iff]
          intro hcon
          obtain ⟨g, hg, hgt⟩ := List.any_eq_true.mp hcon
          exact haccall g hg (by rw [hroute] at hgt; exact hgt)
        have hins : insertRow acc t = acc ++ [mkGroup t] := by
          unfold insertRow
          rw [hany]
          simp
        rw [hins, List.find?_append, hacc]
        have hpred : ((mkGroup t).transaction == r) = true := by
          simp [mkGroup, hroute]
        have hrow : (routeOf t == r) = true := by simp [hroute]
        simp [List.find?_cons, hpred, hrow]
      · have hnew : ((mkGroup t).transaction == r) = false := by
          simp [mkGroup, hroute]
        have hrow : (routeOf t == r) = false := by simp [hroute]
        have hins : (insertRow acc t).find? (fun g => g.transaction == r) = none := by
          unfold insertRow
          split
          · exact hacc
          · rw [List.find?_append, hacc]
            simp [List.find?_cons, hnew]
        rw [hins, hacc]
        simp [List.find?_cons, hrow]
    · have hins : (insertRow acc t).find? (fun g => g.transaction == r) = some g := by
        unfold insertRow
        split
        · exact hacc
        · rw [List.find?_append, hacc]
          simp
      rw [hins, hacc]
      simp

theorem groupRoutes_find? (ts : List TransRow) (r : String) :
    (groupRoutes ts).find? (fun g => g.transaction == r) =
      (ts.find? (fun t => routeOf t == r)).map mkGroup := by
  have h := foldl_insertRow_find? ts [] r
  simpa [groupRoutes] using h

theorem foldl_insertRow_pairwise (ts : List TransRow) (acc : List RouteGroup)
    (hacc : acc.Pairwise (fun a b => a.transaction ≠ b.transaction)) :
    (ts.foldl insertRow acc).Pairwise (fun a b => a.transaction ≠ b.transaction) := by
  induction ts generalizing acc with
  | nil => exact hacc
  | cons t ts ih =>
    rw [List.foldl_cons]
    refine ih (insertRow acc t) ?_
    unfold insertRow
    split
    · exact hacc
    · rename_i hany
      rw [Bool.not_eq_true] at hany
      refine List.pairwise_append.mpr ⟨hacc, List.pairwise_singleton _ _, ?_⟩
      intro a ha b hb
      rw [List.mem_singleton] at hb
      subst hb
      intro hcon
      have : acc.any (fun g => g.transaction == routeOf t) = true :=
        List.any_eq_true.mpr ⟨a, ha, by simp [mkGroup] at hcon ⊢; exact hcon⟩
      rw [hany] at this
      exact Bool.false_ne_true this

theorem groupRoutes_pairwise (ts : List TransRow) :
    (groupRoutes ts).Pairwise (fun a b => a.transaction ≠ b.transaction) :=
  foldl_insertRow_pairwise ts [] (List.Pairwise.nil)

theorem find?_of_mem_unique {gs : List RouteGroup} {g : RouteGroup}
    (hdist : gs.Pairwise (fun a b => a.transaction ≠ b.transaction))
    (hmem : g ∈ gs) :
    gs.find? (fun x => x.transaction == g.transaction) = some g := by
  induction gs with
  | nil => cases hmem
  | cons y ys ih =>
    rw [List.pairwise_cons] at hdist
    rcases List.mem_cons.mp hmem with rfl | hmem'
    · exact List.find?_cons_of_pos _ (by simp)
    · have hne : y.transaction ≠ g.transaction := hdist.1 g hmem'
      rw [List.find?_cons_of_neg _ (by simp [hne])]
      exact ih hdist.2 hmem'

/-- Membership in the final slow-route list, characterised by the first input
row carrying each route. -/
theorem mem_slowRoutesSorted_iff (ts : List TransRow) (θ : ℚ) (r : String) :
    (∃ s ∈ slowRoutesSorted ts θ, s.route = r) ↔
      (∃ t0, ts.find? (fun t => routeOf t == r) = some t0 ∧ θ < orZero t0.p95) := by
  unfold slowRoutesSorted
  constructor
  · rintro ⟨s, hs, hsr⟩
    have hs' : s ∈ slowRoutesPre ts θ :=
      (sortDescBy_perm (fun s => s.p95_ms) (slowRoutesPre ts θ)).mem_iff.mp hs
    obtain ⟨g, hg, rfl⟩ := List.mem_map.mp hs'
    have hgmem : g ∈ groupRoutes ts := List.mem_of_mem_filter hg
    have hgp : θ < g.p95_ms := by
      have := List.of_mem_filter hg
      simpa using this
    have hgr : g.transaction = r := hsr
    have hfind : (groupRoutes ts).find? (fun x => x.transaction == g.transaction) =
        some g := find?_of_mem_unique (groupRoutes_pairwise ts) hgmem
    rw [hgr] at hfind
    rw [groupRoutes_find? ts r] at hfind
    rcases hrow : ts.find? (fun t => routeOf t == r) with _ | t0
    · rw [hrow] at hfind; cases hfind
    · rw [hrow] at hfind
      refine ⟨t0, rfl, ?_⟩
      have : mkGroup t0 = g := by simpa using hfind
      rw [← this] at hgp
      simpa [mkGroup] using hgp
  · rintro ⟨t0, hfind, hp95⟩
    have hroute : routeOf t0 = r := by
      have := List.find?_some hfind
      simpa using this
    have hgfind : (groupRoutes ts).find? (fun g => g.transaction == r) =
        some (mkGroup t0) := by
      rw [groupRoutes_find? ts r, hfind]
      rfl
    have hgmem : mkGroup t0 ∈ groupRoutes ts := List.mem_of_find?_eq_some hgfind
    have hgfilter : mkGroup t0 ∈
        (groupRoutes ts).filter (fun g => decide (θ < g.p95_ms)) := by
      refine List.mem_filter.mpr ⟨hgmem, ?_⟩
      simpa [mkGroup] using hp95
    have hpre : mkStat (mkGroup t0) ∈ slowRoutesPre ts θ :=
      List.mem_map.mpr ⟨mkGroup t0, hgfilter, rfl⟩
    refine ⟨mkStat (mkGroup t0),
      (sortDescBy_perm (fun s => s.p95_ms) (slowRoutesPre ts θ)).mem_iff.mpr hpre, ?_⟩
    simp [mkStat, mkGroup, hroute]

/-! ## Claim theorems: slow-transaction aggregation -/

/-- C1: grouping by route is first-write-wins: the recorded group for any route
is built exactly from the first row whose transaction field (default "unknown")
equals that route, and later rows never change it; on the spec scenario
[/a:500, /a:9000, /b:3000] with threshold 2000, slow_routes is exactly the
"/b" entry with p95 3000, and "/a" is excluded. -/
theorem C1_first_write_wins :
    (∀ (ts : List TransRow) (r : String),
        (groupRoutes ts).find? (fun g => g.transaction == r) =
          (ts.find? (fun t => routeOf t == r)).map mkGroup)
    ∧ slowRoutesSorted scenarioRows 2000 =
        [{ route := "/b", p95_ms := 3000, p50_ms := 0, tpm := 0, failure_rate := 0,
           http_method := "N/A", transaction_op := "N/A" }]
    ∧ (∀ s ∈ slowRoutesSorted scenarioRows 2000, s.route ≠ "/a") := by
  have hlist : slowRoutesSorted scenarioRows 2000 =
      [{ route := "/b", p95_ms := 3000, p50_ms := 0, tpm := 0, failure_rate := 0,
         http_method := "N/A", transaction_op := "N/A" }] := by
    simp [slowRoutesSorted, slowRoutesPre, groupRoutes, insertRow, scenarioRows,
      mkGroup, routeOf, orZero, mkStat, sortDescBy, insertDescBy, pyRound2_zero,
      pyRound2_3000]
  refine ⟨groupRoutes_find?, hlist, ?_⟩
  intro s hs
  rw [hlist, List.mem_singleton] at hs
  subst hs
  simp

/-- C5: an empty fetched transaction list yields the explicit error result
"No transactions found", while a non-empty input where no route passes the
filter yields the normal result shape with all counts, the echoed threshold
and period, and an empty slow-route list. -/
theorem C5_no_data_vs_empty :
    (∀ (θ : ℚ) (p : String),
        analyze_slow_transactions [] θ p = .err "No transactions found")
    ∧ (∀ (ts : List TransRow) (θ : ℚ) (p : String), ts ≠ [] →
        (∀ g ∈ groupRoutes ts, ¬ θ < g.p95_ms) →
        analyze_slow_transactions ts θ p =
          .ok ts.length (groupRoutes ts).length 0 θ p []) := by
  constructor
  · intro θ p
    simp [analyze_slow_transactions]
  · intro ts θ p hne hslow
    have hfilter : (groupRoutes ts).filter (fun g => decide (θ < g.p95_ms)) = [] := by
      rw [List.filter_eq_nil_iff]
      intro g hg
      simpa using hslow g hg
    have hsorted : slowRoutesSorted ts θ = [] := by
      rw [slowRoutesSorted, slowRoutesPre, hfilter]
      rfl
    simp [analyze_slow_transactions, hne, hsorted]

/-- C5 witness: a one-row input below a 200 ms threshold produces the normal
zero-slow-routes result shape, not the error shape. -/
theorem C5_witness :
    [rowBelow] ≠ ([] : List TransRow)
    ∧ analyze_slow_transactions [rowBelow] 200 "24h" = .ok 1 1 0 200 "24h" [] := by
  have hgroups : groupRoutes [rowBelow] = [mkGroup rowBelow] := by
    simp [groupRoutes, insertRow]
  have h := C5_no_data_vs_empty.2 [rowBelow] 200 "24h" (by simp)
    (by
      intro g hg
      rw [hgroups, List.mem_singleton] at hg
      subst hg
      norm_num [mkGroup, rowBelow, orZero])
  rw [h, hgroups]
  exact ⟨by simp, rfl⟩

/-- C6: a route appears in slow_routes iff the recorded (first-seen) p95 of its
first row strictly exceeds threshold_ms, and a route whose recorded p95 equals
the threshold exactly is excluded. -/
theorem C6_strict_threshold :
    (∀ (ts : List TransRow) (θ : ℚ) (r : String),
      (∃ s ∈ slowRoutesSorted ts θ, s.route = r) ↔
        (∃ t0, ts.find? (fun t => routeOf t == r) = some t0 ∧ θ < orZero t0.p95))
    ∧ (∀ (ts : List TransRow) (θ : ℚ) (r : String) (t0 : TransRow),
        ts.find? (fun t => routeOf t == r) = some t0 → orZero t0.p95 = θ →
        ∀ s ∈ slowRoutesSorted ts θ, s.route ≠ r) := by
  refine ⟨mem_slowRoutesSorted_iff, ?_⟩
  intro ts θ r t0 hfind heq s hs hsr
  obtain ⟨t1, hfind1, hp⟩ := (mem_slowRoutesSorted_iff ts θ r).mp ⟨s, hs, hsr⟩
  rw [hfind] at hfind1
  obtain rfl : t0 = t1 := Option.some.inj hfind1
  rw [heq] at hp
  exact lt_irrefl θ hp

/-- C6 witness: a route whose recorded p95 is exactly 2000 does not appear in
the slow-route list for threshold 2000. -/
theorem C6_witness :
    ∀ s ∈ slowRoutesSorted [rowAtThreshold] 2000, s.route ≠ "/e" := by
  refine C6_strict_threshold.2 [rowAtThreshold] 2000 "/e" rowAtThreshold ?_ ?_
  · rfl
  · rfl

/-- C7: the slow-routes output is descending in p95_ms (every later entry has a
p95 no larger than every earlier one), and entries with any given p95 value
appear exactly as in the pre-sort first-encounter-ordered list (stable sort,
no secondary key). -/
theorem C7_sorted_stable :
    ∀ (ts : List TransRow) (θ : ℚ),
      (slowRoutesSorted ts θ).Pairwise (fun a b => b.p95_ms ≤ a.p95_ms)
      ∧ ∀ c, (slowRoutesSorted ts θ).filter (fun s => decide (s.p95_ms = c)) =
          (slowRoutesPre ts θ).filter (fun s => decide (s.p95_ms = c)) := by
  intro ts θ
  exact ⟨sortDescBy_pairwise (fun s => s.p95_ms) (slowRoutesPre ts θ),
    fun c => sortDescBy_filter_key (fun s => s.p95_ms) (slowRoutesPre ts θ) c⟩

/-- C10: a route whose first row has an absent/null/falsy p95() records p95 = 0
and never appears in slow_routes for any threshold ≥ 0; in particular the
performance-overview path (threshold 0) silently omits it. -/
theorem C10_falsy_p95_excluded :
    ∀ (ts : List TransRow) (θ : ℚ) (p : String) (r : String) (t0 : TransRow),
      0 ≤ θ →
      ts.find? (fun t => routeOf t == r) = some t0 →
      orZero t0.p95 = 0 →
      (∀ s ∈ slowRoutesSorted ts θ, s.route ≠ r)
      ∧ (∀ s ∈ performanceOverviewRoutes ts p, s.route ≠ r) := by
  intro ts θ p r t0 hθ hfind hp95
  have key : ∀ (θ' : ℚ), 0 ≤ θ' → ∀ s ∈ slowRoutesSorted ts θ', s.route ≠ r := by
    intro θ' hθ' s hs hsr
    obtain ⟨t1, hfind1, hp⟩ := (mem_slowRoutesSorted_iff ts θ' r).mp ⟨s, hs, hsr⟩
    rw [hfind] at hfind1
    obtain rfl : t0 = t1 := Option.some.inj hfind1
    rw [hp95] at hp
    exact absurd hp (not_lt.mpr hθ')
  refine ⟨key θ hθ, ?_⟩
  have hover : performanceOverviewRoutes ts p = []
      ∨ performanceOverviewRoutes ts p = slowRoutesSorted ts 0 := by
    unfold performanceOverviewRoutes analyze_slow_transactions resultSlowRoutes
    by_cases hts : ts = [] <;> simp [hts]
  rcases hover with hover | hover
  · rw [hover]
    intro s hs
    cases hs
  · rw [hover]
    exact key 0 le_rfl

/-- C10 witness: the route "/z", whose only row has no p95() field, appears
neither in the slow-route list for threshold 5 nor in the performance
overview. -/
theorem C10_witness :
    (∀ s ∈ slowRoutesSorted [rowNoP95] 5, s.route ≠ "/z")
    ∧ (∀ s ∈ performanceOverviewRoutes [rowNoP95] "24h", s.route ≠ "/z") :=
  C10_falsy_p95_excluded [rowNoP95] 5 "24h" "/z" rowNoP95 (by norm_num) rfl rfl

/-! ## Trace and span lemmas -/

theorem findSpansEntry_eq_find? (l : List Entry) :
    findSpansEntry l =
      (match l.find? (fun e => e.type == some "spans") with
        | some e => e.data.getD []
        | none => []) := by
  induction l with
  | nil => rfl
  | cons e rest ih =>
    unfold findSpansEntry
    rw [List.find?_cons]
    rcases he : (e.type == some "spans") with _ | _ <;> simp [he, ih]

theorem pyRound2_ten_thirds : pyRound2 (10/3) = 333/100 := by
  have harg : (10/3 : ℚ) * 100 = 1000/3 := by norm_num
  have h1 : ⌊(10/3 : ℚ) * 100⌋ = 333 := by
    rw [harg, Int.floor_eq_iff]
    constructor <;> norm_num
  have hcond : ¬ ((10/3 : ℚ) * 100 - ⌊(10/3 : ℚ) * 100⌋ = 1/2) := by
    rw [h1, harg]
    norm_num
  have h2 : round ((10/3 : ℚ) * 100) = 333 := by
    rw [round_eq, harg, show (1000/3 : ℚ) + 1/2 = 2003/6 by norm_num,
      Int.floor_eq_iff]
    constructor <;> norm_num
  unfold pyRound2 roundHalfEven
  rw [if_neg hcond, h2]
  norm_num

theorem collectTraces_eq_filterMap (fetchTr : String → Option TraceResult)
    (l : List EvSummary) :
    collectTraces fetchTr l = l.filterMap (tryFetchTrace fetchTr) := by
  induction l with
  | nil => rfl
  | cons e rest ih =>
    unfold collectTraces
    rw [List.filterMap_cons]
    cases tryFetchTrace fetchTr e <;> simp [ih]

/-! ## Claim theorems: trace and span analysis -/

/-- C2 counterexample: an event with no start/end timestamps but a nested
trace-context duration of 5 seconds: the code returns a total duration of 0,
while the claimed trace-context fallback would give 5000. -/
theorem C2_counterexample :
    traceTotalDuration (get_transaction_trace "e1" (some eventCtxOnly)) = 0
    ∧ specTotalDuration eventCtxOnly = 5000
    ∧ traceTotalDuration (get_transaction_trace "e1" (some eventCtxOnly)) ≠
        specTotalDuration eventCtxOnly := by
  have h0 : traceTotalDuration (get_transaction_trace "e1" (some eventCtxOnly)) = 0 := by
    simp [get_transaction_trace, traceTotalDuration, totalDuration, eventCtxOnly]
  have h5 : specTotalDuration eventCtxOnly = 5000 := by
    simp [specTotalDuration, eventCtxOnly]
    norm_num
  refine ⟨h0, h5, ?_⟩
  rw [h0, h5]
  norm_num

/-- C2 amended: the total trace duration is (endTimestamp − startTimestamp) ×
1000 when both explicit timestamps are present and truthy and 0 otherwise;
the nested trace-context duration field is never consulted, and missing data
yields 0 on a normal (non-error) result. -/
theorem C2_total_duration :
    ∀ (eid : String) (ev : EventRec),
      traceTotalDuration (get_transaction_trace eid (some ev)) =
        (if ev.startTimestamp.getD 0 ≠ 0 ∧ ev.endTimestamp.getD 0 ≠ 0 then
          (ev.endTimestamp.getD 0 - ev.startTimestamp.getD 0) * 1000 else 0)
      ∧ (∀ (d : Option ℚ) (b : Bool),
          totalDuration { ev with traceContextDuration := d, traceContextDurationInSeconds := b } = totalDuration ev)
      ∧ (∀ m, get_transaction_trace eid (some ev) ≠ .err m) := by
  intro eid ev
  refine ⟨rfl, fun d b => rfl, ?_⟩
  intro m hcon
  simp [get_transaction_trace] at hcon

/-- C3 counterexample: an event whose entries contain no "spans" entry but
which carries a top-level span field: the code extracts an empty span list,
while the claimed top-level fallback would extract that span. -/
theorem C3_counterexample :
    extractSpans eventTopLevelSpans = []
    ∧ specExtractSpans eventTopLevelSpans = [⟨some 1, some 2, none, none, none, none⟩]
    ∧ extractSpans eventTopLevelSpans ≠ specExtractSpans eventTopLevelSpans
    ∧ traceSpans (get_transaction_trace "e2" (some eventTopLevelSpans)) = [] := by
  have h1 : extractSpans eventTopLevelSpans = [] := by
    simp [extractSpans, eventTopLevelSpans, findSpansEntry]
  have h2 : specExtractSpans eventTopLevelSpans =
      [⟨some 1, some 2, none, none, none, none⟩] := by
    simp [specExtractSpans, eventTopLevelSpans, findSpansEntry]
  refine ⟨h1, h2, ?_, ?_⟩
  · rw [h1, h2]
    simp
  · simp [get_transaction_trace, traceSpans, h1, sortDescBy]

/-- C3 amended: span extraction takes the payload array of the first typed
entry whose type marker equals "spans"; an event with no such entry yields an
empty span list (a normal result), and the top-level span field is never
consulted. -/
theorem C3_span_extraction :
    ∀ (ev : EventRec),
      extractSpans ev =
        (match (ev.entries.getD []).find? (fun e => e.type == some "spans") with
          | some e => e.data.getD []
          | none => [])
      ∧ (∀ sp, extractSpans { ev with spans := sp } = extractSpans ev) := by
  intro ev
  exact ⟨findSpansEntry_eq_find? (ev.entries.getD []), fun sp => rfl⟩

/-- C4 counterexample: a span whose end timestamp precedes its start yields the
negative duration −1000 ms, refuting non-negativity; and a span of exact
duration 10/3 ms yields 3.33, refuting the exact-formula reading. -/
theorem C4_counterexample :
    (analyzeSpan spanBackwards).duration_ms = -1000
    ∧ ¬ (0 ≤ (analyzeSpan spanBackwards).duration_ms)
    ∧ traceSpans (get_transaction_trace "e3" (some eventBackwards)) =
        [⟨"unknown", "N/A", -1000, [], []⟩]
    ∧ (analyzeSpan spanThird).duration_ms ≠
        (spanThird.timestamp.getD 0 - spanThird.start_timestamp.getD 0) * 1000 := by
  have hneg : (analyzeSpan spanBackwards).duration_ms = -1000 := by
    have harg : (if spanBackwards.start_timestamp.getD 0 ≠ 0 ∧
        spanBackwards.timestamp.getD 0 ≠ 0 then
        (spanBackwards.timestamp.getD 0 - spanBackwards.start_timestamp.getD 0) * 1000
        else 0) = -1000 := by
      simp [spanBackwards]
      norm_num
    show pyRound2 _ = -1000
    rw [harg, pyRound2_neg1000]
  refine ⟨hneg, by rw [hneg]; norm_num, ?_, ?_⟩
  · have hspans : extractSpans eventBackwards = [spanBackwards] := by
      simp [extractSpans, eventBackwards, findSpansEntry]
    have hone : analyzeSpan spanBackwards =
        ⟨"unknown", "N/A", -1000, [], []⟩ := by
      have hfields : analyzeSpan spanBackwards =
          ⟨"unknown", "N/A", (analyzeSpan spanBackwards).duration_ms, [], []⟩ := rfl
      rw [hfields, hneg]
    simp [get_transaction_trace, traceSpans, hspans, sortDescBy, insertDescBy, hone]
  · have harg : (if spanThird.start_timestamp.getD 0 ≠ 0 ∧
        spanThird.timestamp.getD 0 ≠ 0 then
        (spanThird.timestamp.getD 0 - spanThird.start_timestamp.getD 0) * 1000
        else 0) = 10/3 := by
      simp [spanThird]
      norm_num
    have hval : (analyzeSpan spanThird).duration_ms = 333/100 := by
      show pyRound2 _ = 333/100
      rw [harg, pyRound2_ten_thirds]
    rw [hval]
    simp [spanThird]
    norm_num

/-- C4 amended: duration_ms is (end_timestamp − start_timestamp) × 1000,
rounded half-even to two decimals, when both timestamps are present and
truthy, and 0 when either is missing or falsy; it is non-negative whenever the
end timestamp is not before the start, but nothing clamps it, so out-of-order
timestamps yield a negative value. -/
theorem C4_span_duration (s : SpanRec) :
    (analyzeSpan s).duration_ms =
      pyRound2 (if s.start_timestamp.getD 0 ≠ 0 ∧ s.timestamp.getD 0 ≠ 0 then
        (s.timestamp.getD 0 - s.start_timestamp.getD 0) * 1000 else 0)
    ∧ (s.start_timestamp.getD 0 ≤ s.timestamp.getD 0 →
        0 ≤ (analyzeSpan s).duration_ms) := by
  refine ⟨rfl, ?_⟩
  intro h
  show 0 ≤ pyRound2 _
  apply pyRound2_nonneg
  split
  · nlinarith
  · exact le_rfl

/-- C4 witness: a span with start 1 and end 3 has ordered timestamps and a
non-negative analyzed duration. -/
theorem C4_witness :
    spanForward.start_timestamp.getD 0 ≤ spanForward.timestamp.getD 0
    ∧ 0 ≤ (analyzeSpan spanForward).duration_ms := by
  have hord : spanForward.start_timestamp.getD 0 ≤ spanForward.timestamp.getD 0 := by
    norm_num [spanForward]
  exact ⟨hord, (C4_span_duration spanForward).2 hord⟩

/-- C8: the spans list of a trace analysis is the descending-by-duration stable
sort of the analyzed spans truncated to 20 after sorting: it is pairwise
descending, has length min(20, total), every span left out is no slower than
every span kept, kept and left-out spans together are a permutation of all
analyzed spans, equal durations keep their original order, and spans_count is
the total before truncation. -/
theorem C8_span_ranking (eid : String) (ev : EventRec) :
    traceSpans (get_transaction_trace eid (some ev)) =
      (sortDescBy (fun a => a.duration_ms) ((extractSpans ev).map analyzeSpan)).take 20
    ∧ (traceSpans (get_transaction_trace eid (some ev))).Pairwise
        (fun a b => b.duration_ms ≤ a.duration_ms)
    ∧ (traceSpans (get_transaction_trace eid (some ev))).length =
        min 20 ((extractSpans ev).map analyzeSpan).length
    ∧ traceSpansCount (get_transaction_trace eid (some ev)) =
        ((extractSpans ev).map analyzeSpan).length
    ∧ (∀ x ∈ (sortDescBy (fun a => a.duration_ms)
          ((extractSpans ev).map analyzeSpan)).drop 20,
        ∀ y ∈ traceSpans (get_transaction_trace eid (some ev)),
          x.duration_ms ≤ y.duration_ms)
    ∧ (traceSpans (get_transaction_trace eid (some ev)) ++
        (sortDescBy (fun a => a.duration_ms)
          ((extractSpans ev).map analyzeSpan)).drop 20).Perm
        ((extractSpans ev).map analyzeSpan)
    ∧ (∀ c, (sortDescBy (fun a => a.duration_ms)
          ((extractSpans ev).map analyzeSpan)).filter
            (fun a => decide (a.duration_ms = c)) =
        ((extractSpans ev).map analyzeSpan).filter
          (fun a => decide (a.duration_ms = c))) := by
  have hspans : traceSpans (get_transaction_trace eid (some ev)) =
      (sortDescBy (fun a => a.duration_ms) ((extractSpans ev).map analyzeSpan)).take 20 :=
    rfl
  have hsorted := sortDescBy_pairwise (fun a => a.duration_ms)
    ((extractSpans ev).map analyzeSpan)
  have hperm := sortDescBy_perm (fun a => a.duration_ms)
    ((extractSpans ev).map analyzeSpan)
  have hsplit := List.take_append_drop 20
    (sortDescBy (fun a => a.duration_ms) ((extractSpans ev).map analyzeSpan))
  have hcross : ∀ y ∈ (sortDescBy (fun a => a.duration_ms)
        ((extractSpans ev).map analyzeSpan)).take 20,
      ∀ x ∈ (sortDescBy (fun a => a.duration_ms)
        ((extractSpans ev).map analyzeSpan)).drop 20,
      x.duration_ms ≤ y.duration_ms := by
    have h := hsorted
    rw [← hsplit] at h
    exact (List.pairwise_append.mp h).2.2
  refine ⟨hspans, ?_, ?_, ?_, ?_, ?_, ?_⟩
  · rw [hspans]
    exact List.Pairwise.sublist (List.take_sublist 20 _) hsorted
  · rw [hspans, List.length_take, hperm.length_eq]
  · rfl
  · intro x hx y hy
    rw [hspans] at hy
    exact hcross y hy x hx
  · rw [hspans, hsplit]
    exact hperm
  · intro c
    exact sortDescBy_filter_key (fun a => a.duration_ms)
      ((extractSpans ev).map analyzeSpan) c

/-- C1 witness: the single slow-route entry of the scenario is the "/b" one. -/
theorem C1_witness :
    ({ route := "/b", p95_ms := 3000, p50_ms := 0, tpm := 0, failure_rate := 0,
       http_method := "N/A", transaction_op := "N/A" } : SlowRouteStat).route ≠ "/a" := by
  apply C1_first_write_wins.2.2
  rw [C1_first_write_wins.2.1]
  exact List.mem_singleton.mpr rfl

/-- C2 witness: an event with no explicit start/end timestamps gets total
duration 0 on a non-error result. -/
theorem C2_witness :
    traceTotalDuration (get_transaction_trace "w2" (some eventBackwards)) = 0
    ∧ get_transaction_trace "w2" (some eventBackwards) ≠ .err "boom" := by
  have h := C2_total_duration "w2" eventBackwards
  constructor
  · rw [h.1]
    simp [eventBackwards]
  · exact h.2.2 "boom"

/-- C8 witness: an event with a single span reports spans_count 1 and a spans
list of length min(20, 1) = 1. -/
theorem C8_witness :
    traceSpansCount (get_transaction_trace "w8" (some eventBackwards)) = 1
    ∧ (traceSpans (get_transaction_trace "w8" (some eventBackwards))).length = 1 := by
  have h := C8_span_ranking "w8" eventBackwards
  constructor
  · rw [h.2.2.2.1]
    simp [extractSpans, eventBackwards, findSpansEntry]
  · rw [h.2.2.1]
    simp [extractSpans, eventBackwards, findSpansEntry]

/-- C9: the threshold filter of get_route_detailed_traces is applied after
retrieval and preserves upstream order (the surviving events are a sublist of
the fetched list); on a non-empty filter result the batch succeeds with the ok
shape, its traces are exactly the successful individual fetches over the first
`limit` survivors in order (a failed fetch only drops its own item), and
traces_analyzed counts those successes, never exceeding `limit`. -/
theorem C9_route_traces (route period : String) (θ : ℚ) (limit : ℕ)
    (events : List EvSummary) (fetchTr : String → Option TraceResult)
    (hne : events ≠ []) (hslow : slowEventsOf events θ ≠ []) :
    get_route_detailed_traces route period θ limit events fetchTr =
      .ok route period θ events.length (slowEventsOf events θ).length
        (((slowEventsOf events θ).take limit).filterMap (tryFetchTrace fetchTr)).length
        (((slowEventsOf events θ).take limit).filterMap (tryFetchTrace fetchTr))
    ∧ (slowEventsOf events θ).Sublist events
    ∧ (((slowEventsOf events θ).take limit).filterMap
        (tryFetchTrace fetchTr)).length ≤ limit := by
  refine ⟨?_, List.filter_sublist events,
    le_trans (List.length_filterMap_le _ _) (List.length_take_le _ _)⟩
  unfold get_route_detailed_traces
  rw [if_neg hne, if_neg hslow, collectTraces_eq_filterMap]

/-- C9 witness: three fetched events, two above the 2000 ms threshold, the
individual trace fetch failing on the second: the batch still succeeds, with
exactly the first event's trace and traces_analyzed = 1. -/
theorem C9_witness :
    evsW ≠ [] ∧ slowEventsOf evsW 2000 ≠ []
    ∧ get_route_detailed_traces "/r" "24h" 2000 5 evsW fetchW =
        .ok "/r" "24h" 2000 3 2 1 [trW] := by
  have hslowEq : slowEventsOf evsW 2000 = [evA, evB] := by
    norm_num [slowEventsOf, evsW, evA, evB, evC, orZero, List.filter]
  have hne : evsW ≠ [] := by simp [evsW]
  have hslow : slowEventsOf evsW 2000 ≠ [] := by rw [hslowEq]; simp
  have h := (C9_route_traces "/r" "24h" 2000 5 evsW fetchW hne hslow).1
  have hmap : ((slowEventsOf evsW 2000).take 5).filterMap (tryFetchTrace fetchW) =
      [trW] := by
    rw [hslowEq]
    simp [tryFetchTrace, fetchW, evA, evB]
  refine ⟨hne, hslow, ?_⟩
  rw [h, hmap, hslowEq]
  simp [evsW]

end SentryMCP
